import Mathlib

/-!
Verification of the meeting-brief backend (research_service.py, main.py).

The Python code is shallowly embedded: strings are `String` / `List Char`,
Python `str.find` / slicing / `strip` / `split` / `capitalize` are modelled
by executable Lean functions with the same semantics, exceptions are
modelled with `Except String` (the error carries the exception's textual
form), and the nondeterministic ingredients of a run (the LLM call outcome,
`datetime.now()`, `json.loads`) are passed as explicit parameters: the LLM
outcome as an `Except` value, the timestamp as a string, and the JSON
parser as an abstract function `String → Option J` since the code never
inspects the parsed value.
-/

/-- An attendee, as the dict `\x7b"email": ..., "name": ...\x7d` used by the code. -/
structure Attendee where
  email : String
  name : String
deriving DecidableEq, Repr

/-- Python `s.split(sep)` for a one-character separator: splits on every
occurrence, keeping empty segments (`"a@".split("@") = ["a", ""]`). -/
def pySplit (sep : Char) : List Char → List (List Char)
  | [] => [[]]
  | c :: rest =>
    if c = sep then
      [] :: pySplit sep rest
    else
      match pySplit sep rest with
      | [] => [[c]]
      | seg :: segs => (c :: seg) :: segs

/-- Python `str.capitalize`: first character uppercased, all others lowercased. -/
def pyCapitalize : List Char → List Char
  | [] => []
  | c :: rest => c.toUpper :: rest.map Char.toLower

/-- `extract_company_from_email` (research_service.py lines 163-172):
`email.split("@")[1]` then `domain.split(".")[0]` then `.capitalize()`,
with any exception (the `[1]` on a split without an `@`) caught and turned
into the literal `"Company"`. -/
def extract_company_from_email (email : String) : String :=
  match pySplit '@' email.data with
  | _ :: domain :: _ => String.mk (pyCapitalize ((pySplit '.' domain).headD []))
  | _ => "Company"


/-- The substring `sub` occurs in `s` at position `i` (Python indexing). -/
def OccursAt (sub s : List Char) (i : Nat) : Prop :=
  (s.drop i).take sub.length = sub

instance (sub s : List Char) (i : Nat) : Decidable (OccursAt sub s i) := by
  unfold OccursAt; infer_instance

/-- Index of the first occurrence of `sub` in `s`, `none` when there is no
occurrence: the model of Python `s.find(sub)` (`-1` becomes `none`). -/
def firstIdx (sub : List Char) : List Char → Option Nat
  | [] => if sub.isEmpty then some 0 else none
  | c :: rest =>
    if (c :: rest).take sub.length = sub then some 0
    else (firstIdx sub rest).map (fun n => n + 1)

/-- Python `s.find(sub, start)` for `start ≤ len(s)`: first occurrence at
index `≥ start`. -/
def pyFindFrom (sub s : List Char) (start : Nat) : Option Nat :=
  (firstIdx sub (s.drop start)).map (fun n => n + start)

/-- Python `sub in s`. -/
def containsSub (sub s : List Char) : Bool :=
  (firstIdx sub s).isSome

/-- Python slice `s[i:j]` for a nonnegative lower bound `i` and an `Int`
upper bound `j` (a negative `j` counts from the end: `s[i:-1]` drops the
final character). -/
def pySlice (s : List Char) (i : Nat) (j : Int) : List Char :=
  let jEff : Nat := if j < 0 then ((s.length : Int) + j).toNat else j.toNat
  (s.take jEff).drop i

/-- The six characters Python `str.strip()` removes. -/
def isPyWS (c : Char) : Bool :=
  c = ' ' || c = '\t' || c = '\n' || c = '\x0d' || c = '\x0b' || c = '\x0c'

/-- Python `s.strip()`: leading and trailing whitespace removed. -/
def pyStrip (s : List Char) : List Char :=
  ((s.dropWhile isPyWS).reverse.dropWhile isPyWS).reverse


/-- The tagged opening fence marker, `"```json"` (7 characters). -/
def fenceJson : List Char := "```json".data

/-- The bare fence marker, `"```"`. -/
def fence3 : List Char := "```".data

/-- The JSON-extraction step of `generate_meeting_brief`
(research_service.py lines 110-120), verbatim:

* if `"```json" in brief_text`: `json_start = find("```json") + 7`,
  `json_end = find("```", json_start)` (`-1` when absent),
  result `brief_text[json_start:json_end].strip()`;
* elif `"```" in brief_text`: same with offset 3;
* else `brief_text.strip()`. -/
def extractJsonL (s : List Char) : List Char :=
  if containsSub fenceJson s then
    let jsonStart := (firstIdx fenceJson s).getD 0 + 7
    let jsonEnd : Int :=
      match pyFindFrom fence3 s jsonStart with
      | some j => (j : Int)
      | none => -1
    pyStrip (pySlice s jsonStart jsonEnd)
  else if containsSub fence3 s then
    let jsonStart := (firstIdx fence3 s).getD 0 + 3
    let jsonEnd : Int :=
      match pyFindFrom fence3 s jsonStart with
      | some j => (j : Int)
      | none => -1
    pyStrip (pySlice s jsonStart jsonEnd)
  else
    pyStrip s

/-- String-level wrapper for `extractJsonL`. -/
def extractJson (s : String) : String :=
  String.mk (extractJsonL s.data)

/-- A content block of the model reply: a text block or anything else
(e.g. a tool-use block, which contributes nothing to `brief_text`). -/
inductive Block where
  | text (s : String)
  | other
deriving DecidableEq, Repr

/-- `brief_text`: the concatenation, in order, of the `.text` of every
text-typed block of the reply (research_service.py lines 102-105). -/
def concatText (blocks : List Block) : String :=
  blocks.foldl (fun acc b => match b with | .text t => acc ++ t | .other => acc) ""

/-- One profile of the fallback brief's `"attendees"` list. -/
structure AttendeeProfile where
  name : String
  email : String
  role : String
  company : String
  background : String
  recent_activity : String
  key_fact : String
deriving DecidableEq, Repr

/-- The shape of the dict built by `generate_fallback_brief`. -/
structure FallbackBrief where
  attendees : List AttendeeProfile
  conversation_starters : List String
  questions_to_ask : List String
  strategy : String
  generated_at : String
deriving DecidableEq, Repr

/-- `generate_fallback_brief` (research_service.py lines 131-160). The
`datetime.now().isoformat()` timestamp is the explicit parameter `now`.
On an empty attendee list, `attendees[0]` in the second conversation
starter raises `IndexError`, modelled as the `Except.error` case carrying
the exception's textual form. -/
def generate_fallback_brief (attendees : List Attendee) (now : String) :
    Except String FallbackBrief :=
  match attendees with
  | [] => .error ("list index out of range")
  | a0 :: _ =>
    .ok
      { attendees :=
          attendees.map fun a =>
            { name := a.name
              email := a.email
              role := "Role not yet researched"
              company := extract_company_from_email a.email
              background := "Research in progress..."
              recent_activity := ""
              key_fact := "" }
        conversation_starters :=
          [ "Thank you for taking the time to meet today"
          , "I'm excited to learn more about " ++ extract_company_from_email a0.email
          , "What are your top priorities for this quarter?" ]
        questions_to_ask :=
          [ "What challenges are you currently facing?"
          , "What does success look like for you?"
          , "How can we best support your goals?" ]
        strategy := "Focus on building rapport, understanding their needs, and exploring potential collaboration opportunities."
        generated_at := now }

/-- What `generate_meeting_brief` returns on its normal path: either the
object parsed from the model reply, verbatim, or the fallback brief. -/
inductive GenResult (J : Type) where
  | parsed (j : J)
  | fallback (b : FallbackBrief)
deriving DecidableEq, Repr

/-- `generate_meeting_brief` (research_service.py lines 83-128). The
outcome of the `client.messages.create` call is the parameter
`llmOutcome` (`error` = the call raised, with message; `ok` = the reply's
content blocks); `json.loads` is the abstract parameter `parse` (`none` =
it raised). The whole try-block is: call, concatenate text blocks,
extract the JSON substring, parse; any failure lands in the
`except Exception` handler, which returns `generate_fallback_brief` — and
an exception raised by the handler itself escapes the function
(`Except.error`). -/
def generate_meeting_brief {J : Type} (parse : String → Option J)
    (llmOutcome : Except String (List Block))
    (attendees : List Attendee) (now : String) :
    Except String (GenResult J) :=
  match llmOutcome with
  | .error _ => (generate_fallback_brief attendees now).map .fallback
  | .ok blocks =>
    let briefText := concatText blocks
    let jsonText := extractJson briefText
    match parse jsonText with
    | some j => .ok (.parsed j)
    | none => (generate_fallback_brief attendees now).map .fallback

/-- A JSON value, as produced by `json.loads`. Objects keep their fields
in insertion order, as Python dicts do. -/
inductive JVal where
  | null
  | bool (b : Bool)
  | num (n : Int)
  | str (s : String)
  | arr (xs : List JVal)
  | obj (fields : List (String × JVal))

/-- Python `d[k] = v` on the field list of a dict: replaces the value in
place when the key is present, appends otherwise. -/
def dictSet : List (String × JVal) → String → JVal → List (String × JVal)
  | [], k, v => [(k, v)]
  | (k', v') :: rest, k, v =>
    if k' = k then (k, v) :: rest else (k', v') :: dictSet rest k v

/-- Python `d[k]` lookup on the field list of a dict. -/
def dictGet : List (String × JVal) → String → Option JVal
  | [], _ => none
  | (k', v') :: rest, k => if k' = k then some v' else dictGet rest k

/-- Python `brief[k] = v`: succeeds only on a dict; on any other value a
`TypeError` is raised, modelled as `Except.error` with its textual form. -/
def pySetItem (b : JVal) (k : String) (v : JVal) : Except String JVal :=
  match b with
  | .obj fields => .ok (.obj (dictSet fields k v))
  | _ => .error ("object does not support item assignment")

/-- The fallback brief as the Python dict it is, fields in the insertion
order of the dict literal. -/
def FallbackBrief.toJVal (b : FallbackBrief) : JVal :=
  .obj
    [ ("attendees", .arr (b.attendees.map fun p =>
        .obj
          [ ("name", .str p.name)
          , ("email", .str p.email)
          , ("role", .str p.role)
          , ("company", .str p.company)
          , ("background", .str p.background)
          , ("recent_activity", .str p.recent_activity)
          , ("key_fact", .str p.key_fact) ]))
    , ("conversation_starters", .arr (b.conversation_starters.map .str))
    , ("questions_to_ask", .arr (b.questions_to_ask.map .str))
    , ("strategy", .str b.strategy)
    , ("generated_at", .str b.generated_at) ]

/-- The body of a `POST /api/generate-brief` request (main.py lines 24-28),
after the framework's schema validation. -/
structure BriefRequest where
  meeting_id : String
  meeting_title : String
  meeting_time : String
  attendees : List Attendee

/-- `meeting_id` of a brief value, when it is a dict. -/
def meetingIdOf (v : JVal) : Option JVal :=
  match v with
  | .obj fields => dictGet fields ("meeting_id")
  | _ => none

/-- The `generate_brief` endpoint handler (main.py lines 47-69): call the
Generator on the request's attendees, set `brief["meeting_id"]` to the
request's `meeting_id`, and return the brief; any exception in this path
becomes `HTTPException(500, "Error generating brief: " + str(e))`,
modelled as `Except.error` carrying that detail string. -/
def generate_brief (parse : String → Option JVal)
    (llmOutcome : Except String (List Block))
    (req : BriefRequest) (now : String) : Except String JVal :=
  match generate_meeting_brief parse llmOutcome req.attendees now with
  | .error m => .error ("Error generating brief: " ++ m)
  | .ok res =>
    let briefVal : JVal :=
      match res with
      | .parsed j => j
      | .fallback b => b.toJVal
    match pySetItem briefVal ("meeting_id") (.str req.meeting_id) with
    | .ok v => .ok v
    | .error m => .error ("Error generating brief: " ++ m)

/-! ### Correctness of the `str.find` model -/

/-- `i` is the first occurrence of `sub` in `s`. -/
def FirstOccur (sub s : List Char) (i : Nat) : Prop :=
  OccursAt sub s i ∧ ∀ k, k < i → ¬ OccursAt sub s k

/-- `i` is the first occurrence of `sub` in `s` at index `≥ start`. -/
def FirstOccurFrom (sub s : List Char) (start i : Nat) : Prop :=
  start ≤ i ∧ OccursAt sub s i ∧ ∀ k, k < i → start ≤ k → ¬ OccursAt sub s k

instance (sub s : List Char) (i : Nat) : Decidable (FirstOccur sub s i) := by
  unfold FirstOccur; infer_instance

instance (sub s : List Char) (start i : Nat) : Decidable (FirstOccurFrom sub s start i) := by
  unfold FirstOccurFrom; infer_instance

theorem occursAt_zero (sub s : List Char) :
    OccursAt sub s 0 ↔ s.take sub.length = sub := by
  simp [OccursAt]

theorem occursAt_cons_succ (sub : List Char) (c : Char) (rest : List Char) (i : Nat) :
    OccursAt sub (c :: rest) (i + 1) ↔ OccursAt sub rest i := by
  simp [OccursAt]

theorem firstIdx_eq_some_iff (sub : List Char) (hsub : sub ≠ []) :
    ∀ (s : List Char) (i : Nat),
      firstIdx sub s = some i ↔ FirstOccur sub s i := by
  intro s
  induction s with
  | nil =>
    intro i
    constructor
    · intro h
      rw [firstIdx] at h
      rw [if_neg (by simpa [List.isEmpty_iff] using hsub)] at h
      cases h
    · rintro ⟨hocc, -⟩
      exfalso
      apply hsub
      have : (List.drop i []).take sub.length = sub := hocc
      simpa using this.symm
  | cons c rest ih =>
    intro i
    rw [firstIdx]
    by_cases hocc0 : (c :: rest).take sub.length = sub
    · rw [if_pos hocc0]
      constructor
      · intro h
        cases h
        exact ⟨(occursAt_zero sub _).mpr hocc0, by omega⟩
      · rintro ⟨ho, hmin⟩
        cases i with
        | zero => rfl
        | succ n =>
          exact absurd ((occursAt_zero sub _).mpr hocc0) (hmin 0 (by omega))
    · rw [if_neg hocc0]
      constructor
      · intro h
        rcases Option.map_eq_some'.mp h with ⟨n, hn, rfl⟩
        obtain ⟨ho, hmin⟩ := (ih n).mp hn
        refine ⟨(occursAt_cons_succ sub c rest n).mpr ho, ?_⟩
        intro k hk
        cases k with
        | zero => exact fun hc => hocc0 ((occursAt_zero sub _).mp hc)
        | succ k' =>
          intro hc
          exact hmin k' (by omega) ((occursAt_cons_succ sub c rest k').mp hc)
      · rintro ⟨ho, hmin⟩
        cases i with
        | zero => exact absurd ((occursAt_zero sub _).mp ho) hocc0
        | succ n =>
          have ho' := (occursAt_cons_succ sub c rest n).mp ho
          have hmin' : ∀ k, k < n → ¬ OccursAt sub rest k := fun k hk hc =>
            hmin (k + 1) (by omega) ((occursAt_cons_succ sub c rest k).mpr hc)
          rw [(ih n).mpr ⟨ho', hmin'⟩]
          rfl

theorem firstIdx_eq_none_iff (sub : List Char) (hsub : sub ≠ []) (s : List Char) :
    firstIdx sub s = none ↔ ∀ k, ¬ OccursAt sub s k := by
  constructor
  · intro h k hk
    have hex : ∃ k, OccursAt sub s k := ⟨k, hk⟩
    have h0 := Nat.find_spec hex
    have hmin : ∀ j, j < Nat.find hex → ¬ OccursAt sub s j := fun j hj =>
      Nat.find_min hex hj
    have hs := (firstIdx_eq_some_iff sub hsub s (Nat.find hex)).mpr ⟨h0, hmin⟩
    rw [hs] at h
    cases h
  · intro h
    cases hfi : firstIdx sub s with
    | none => rfl
    | some i =>
      obtain ⟨ho, -⟩ := (firstIdx_eq_some_iff sub hsub s i).mp hfi
      exact absurd ho (h i)

theorem occursAt_drop (sub s : List Char) (start n : Nat) :
    OccursAt sub (s.drop start) n ↔ OccursAt sub s (start + n) := by
  unfold OccursAt
  rw [List.drop_drop]

theorem pyFindFrom_eq_some_iff (sub : List Char) (hsub : sub ≠ []) (s : List Char)
    (start i : Nat) :
    pyFindFrom sub s start = some i ↔ FirstOccurFrom sub s start i := by
  unfold pyFindFrom FirstOccurFrom
  constructor
  · intro h
    rcases Option.map_eq_some'.mp h with ⟨n, hn, rfl⟩
    obtain ⟨ho, hmin⟩ := (firstIdx_eq_some_iff sub hsub _ n).mp hn
    refine ⟨by omega, ?_, ?_⟩
    · have := (occursAt_drop sub s start n).mp ho
      rwa [Nat.add_comm start n] at this
    · intro k hk hks hc
      have hk' : OccursAt sub (s.drop start) (k - start) := by
        apply (occursAt_drop sub s start (k - start)).mpr
        rwa [Nat.add_sub_cancel' hks]
      exact hmin (k - start) (by omega) hk'
  · rintro ⟨hsi, ho, hmin⟩
    have hn : firstIdx sub (s.drop start) = some (i - start) := by
      apply (firstIdx_eq_some_iff sub hsub _ _).mpr
      constructor
      · apply (occursAt_drop sub s start (i - start)).mpr
        rwa [Nat.add_sub_cancel' hsi]
      · intro k hk hc
        exact hmin (start + k) (by omega) (by omega)
          ((occursAt_drop sub s start k).mp hc)
    rw [hn]
    simp only [Option.map_some']
    congr 1
    omega

theorem pyFindFrom_eq_none_iff (sub : List Char) (hsub : sub ≠ []) (s : List Char)
    (start : Nat) :
    pyFindFrom sub s start = none ↔ ∀ k, start ≤ k → ¬ OccursAt sub s k := by
  unfold pyFindFrom
  rw [Option.map_eq_none', firstIdx_eq_none_iff sub hsub]
  constructor
  · intro h k hk hc
    apply h (k - start)
    apply (occursAt_drop sub s start (k - start)).mpr
    rwa [Nat.add_sub_cancel' hk]
  · intro h n hc
    exact h (start + n) (by omega) ((occursAt_drop sub s start n).mp hc)

theorem containsSub_eq_true_iff (sub : List Char) (hsub : sub ≠ []) (s : List Char) :
    containsSub sub s = true ↔ ∃ i, OccursAt sub s i := by
  unfold containsSub
  rw [Option.isSome_iff_exists]
  constructor
  · rintro ⟨i, hi⟩
    exact ⟨i, ((firstIdx_eq_some_iff sub hsub s i).mp hi).1⟩
  · rintro ⟨i, hi⟩
    cases hfi : firstIdx sub s with
    | none => exact absurd hi ((firstIdx_eq_none_iff sub hsub s).mp hfi i)
    | some n => exact ⟨n, rfl⟩

theorem containsSub_eq_false_iff (sub : List Char) (hsub : sub ≠ []) (s : List Char) :
    containsSub sub s = false ↔ ∀ k, ¬ OccursAt sub s k := by
  unfold containsSub
  rw [← firstIdx_eq_none_iff sub hsub]
  cases firstIdx sub s <;> simp

/-! ### The extraction step, branch by branch -/

theorem pySlice_ofNat (s : List Char) (i j : Nat) :
    pySlice s i (j : Int) = (s.take j).drop i := by
  unfold pySlice
  have h : ¬((j : Int) < 0) := by omega
  simp [h]

theorem pySlice_neg_one (s : List Char) (i : Nat) :
    pySlice s i (-1) = (s.take (s.length - 1)).drop i := by
  unfold pySlice
  have h : (((s.length : Int)) + (-1)).toNat = s.length - 1 := by omega
  simp only [h]
  norm_num

theorem take_pred_drop (s : List Char) (i : Nat) :
    (s.take (s.length - 1)).drop i = (s.drop i).dropLast := by
  rw [List.drop_take, List.dropLast_eq_take, List.length_drop]
  congr 1
  omega

theorem occursAt_fence3_of_fenceJson (s : List Char) (i : Nat)
    (h : OccursAt fenceJson s i) : OccursAt fence3 s i := by
  unfold OccursAt at *
  have hlen7 : fenceJson.length = 7 := by decide
  have hlen3 : fence3.length = 3 := by decide
  have h3 : (s.drop i).take 3 = ((s.drop i).take 7).take 3 := by
    rw [List.take_take]
    norm_num
  rw [hlen7] at h
  rw [hlen3, h3, h]
  decide

theorem extractJsonL_json_closed (s : List Char) (i j : Nat)
    (h1 : FirstOccur fenceJson s i) (h2 : FirstOccurFrom fence3 s (i + 7) j) :
    extractJsonL s = pyStrip ((s.take j).drop (i + 7)) := by
  have hfi : firstIdx fenceJson s = some i :=
    (firstIdx_eq_some_iff fenceJson (by decide) s i).mpr h1
  have hc : containsSub fenceJson s = true := by
    unfold containsSub
    rw [hfi]
    rfl
  have hff : pyFindFrom fence3 s (i + 7) = some j :=
    (pyFindFrom_eq_some_iff fence3 (by decide) s (i + 7) j).mpr h2
  unfold extractJsonL
  rw [if_pos hc, hfi]
  simp only [Option.getD_some]
  rw [hff]
  rw [pySlice_ofNat]

theorem extractJsonL_json_open (s : List Char) (i : Nat)
    (h1 : FirstOccur fenceJson s i)
    (h2 : ∀ k, i + 7 ≤ k → ¬ OccursAt fence3 s k) :
    extractJsonL s = pyStrip ((s.drop (i + 7)).dropLast) := by
  have hfi : firstIdx fenceJson s = some i :=
    (firstIdx_eq_some_iff fenceJson (by decide) s i).mpr h1
  have hc : containsSub fenceJson s = true := by
    unfold containsSub
    rw [hfi]
    rfl
  have hff : pyFindFrom fence3 s (i + 7) = none :=
    (pyFindFrom_eq_none_iff fence3 (by decide) s (i + 7)).mpr h2
  unfold extractJsonL
  rw [if_pos hc, hfi]
  simp only [Option.getD_some]
  rw [hff]
  rw [pySlice_neg_one, take_pred_drop]

theorem extractJsonL_bare_closed (s : List Char) (i j : Nat)
    (hno : ∀ k, ¬ OccursAt fenceJson s k)
    (h1 : FirstOccur fence3 s i) (h2 : FirstOccurFrom fence3 s (i + 3) j) :
    extractJsonL s = pyStrip ((s.take j).drop (i + 3)) := by
  have hcJ : containsSub fenceJson s = false :=
    (containsSub_eq_false_iff fenceJson (by decide) s).mpr hno
  have hfi : firstIdx fence3 s = some i :=
    (firstIdx_eq_some_iff fence3 (by decide) s i).mpr h1
  have hc : containsSub fence3 s = true := by
    unfold containsSub
    rw [hfi]
    rfl
  have hff : pyFindFrom fence3 s (i + 3) = some j :=
    (pyFindFrom_eq_some_iff fence3 (by decide) s (i + 3) j).mpr h2
  unfold extractJsonL
  rw [if_neg (by simp [hcJ]), if_pos hc, hfi]
  simp only [Option.getD_some]
  rw [hff]
  rw [pySlice_ofNat]

theorem extractJsonL_bare_open (s : List Char) (i : Nat)
    (hno : ∀ k, ¬ OccursAt fenceJson s k)
    (h1 : FirstOccur fence3 s i)
    (h2 : ∀ k, i + 3 ≤ k → ¬ OccursAt fence3 s k) :
    extractJsonL s = pyStrip ((s.drop (i + 3)).dropLast) := by
  have hcJ : containsSub fenceJson s = false :=
    (containsSub_eq_false_iff fenceJson (by decide) s).mpr hno
  have hfi : firstIdx fence3 s = some i :=
    (firstIdx_eq_some_iff fence3 (by decide) s i).mpr h1
  have hc : containsSub fence3 s = true := by
    unfold containsSub
    rw [hfi]
    rfl
  have hff : pyFindFrom fence3 s (i + 3) = none :=
    (pyFindFrom_eq_none_iff fence3 (by decide) s (i + 3)).mpr h2
  unfold extractJsonL
  rw [if_neg (by simp [hcJ]), if_pos hc, hfi]
  simp only [Option.getD_some]
  rw [hff]
  rw [pySlice_neg_one, take_pred_drop]

theorem extractJsonL_no_fence (s : List Char)
    (hno : ∀ k, ¬ OccursAt fence3 s k) :
    extractJsonL s = pyStrip s := by
  have hnoJ : ∀ k, ¬ OccursAt fenceJson s k := fun k hk =>
    hno k (occursAt_fence3_of_fenceJson s k hk)
  have hcJ : containsSub fenceJson s = false :=
    (containsSub_eq_false_iff fenceJson (by decide) s).mpr hnoJ
  have hc3 : containsSub fence3 s = false :=
    (containsSub_eq_false_iff fence3 (by decide) s).mpr hno
  unfold extractJsonL
  rw [if_neg (by simp [hcJ]), if_neg (by simp [hc3])]


/-! ### `str.split` facts for company extraction -/

theorem pySplit_ne_nil (sep : Char) (s : List Char) : pySplit sep s ≠ [] := by
  cases s with
  | nil => simp [pySplit]
  | cons c rest =>
    rw [pySplit]
    by_cases h : c = sep
    · simp [h]
    · rw [if_neg h]
      cases pySplit sep rest <;> simp

theorem pySplit_no_sep (sep : Char) (s : List Char) (h : ∀ c ∈ s, c ≠ sep) :
    pySplit sep s = [s] := by
  induction s with
  | nil => rfl
  | cons c rest ih =>
    rw [pySplit]
    rw [if_neg (h c (by simp))]
    rw [ih (fun x hx => h x (by simp [hx]))]

theorem pySplit_headD (sep : Char) (s : List Char) :
    (pySplit sep s).headD [] = s.takeWhile (fun c => c ≠ sep) := by
  induction s with
  | nil => rfl
  | cons c rest ih =>
    rw [pySplit]
    by_cases h : c = sep
    · subst h
      simp [List.takeWhile_cons]
    · rw [if_neg h]
      rcases hps : pySplit sep rest with _ | ⟨seg, segs⟩
      · exact absurd hps (pySplit_ne_nil sep rest)
      · rw [hps] at ih
        simp only [List.headD_cons] at ih
        simp [List.takeWhile_cons, h, ih, decide_not]

theorem pySplit_append_sep (sep : Char) (loc rest : List Char)
    (h : ∀ c ∈ loc, c ≠ sep) :
    pySplit sep (loc ++ sep :: rest) = loc :: pySplit sep rest := by
  induction loc with
  | nil => simp [pySplit]
  | cons c loc' ih =>
    rw [List.cons_append, pySplit]
    rw [if_neg (h c (by simp))]
    rw [ih (fun x hx => h x (by simp [hx]))]

/-! ### Dict update facts for the endpoint -/

theorem dictGet_dictSet (fields : List (String × JVal)) (k : String) (v : JVal) :
    dictGet (dictSet fields k v) k = some v := by
  induction fields with
  | nil => simp [dictSet, dictGet]
  | cons p rest ih =>
    obtain ⟨k', v'⟩ := p
    by_cases hk : k' = k
    · simp [dictSet, dictGet, hk]
    · simp [dictSet, dictGet, hk, ih]

/-- The research path failed: the LLM call raised, or the extracted
substring of the reply did not parse as JSON. -/
def ResearchFails {J : Type} (parse : String → Option J)
    (llmOutcome : Except String (List Block)) : Prop :=
  match llmOutcome with
  | .error _ => True
  | .ok blocks => parse (extractJson (concatText blocks)) = none

/-! ### Reduction helpers for the generator -/

theorem generate_meeting_brief_llm_error {J : Type} (parse : String → Option J)
    (m : String) (attendees : List Attendee) (now : String) :
    generate_meeting_brief parse (.error m) attendees now =
      (generate_fallback_brief attendees now).map .fallback := rfl

theorem generate_meeting_brief_ok_parse {J : Type} (parse : String → Option J)
    (blocks : List Block) (attendees : List Attendee) (now : String) (j : J)
    (hp : parse (extractJson (concatText blocks)) = some j) :
    generate_meeting_brief parse (.ok blocks) attendees now = .ok (.parsed j) := by
  show (match parse (extractJson (concatText blocks)) with
    | some j => Except.ok (GenResult.parsed j)
    | none => (generate_fallback_brief attendees now).map GenResult.fallback) =
      Except.ok (GenResult.parsed j)
  rw [hp]

theorem generate_meeting_brief_parse_fail {J : Type} (parse : String → Option J)
    (blocks : List Block) (attendees : List Attendee) (now : String)
    (hp : parse (extractJson (concatText blocks)) = none) :
    generate_meeting_brief parse (.ok blocks) attendees now =
      (generate_fallback_brief attendees now).map .fallback := by
  show (match parse (extractJson (concatText blocks)) with
    | some j => Except.ok (GenResult.parsed j)
    | none => (generate_fallback_brief attendees now).map GenResult.fallback) = _
  rw [hp]

/-- Claim C1: for every non-empty attendee list, `generate_meeting_brief`
never lets an exception escape (it always returns `Except.ok`), and on any
failure of the research path — LLM call error or unparseable extracted
substring — the returned value is exactly the Fallback Brief. -/
theorem spec_c1 {J : Type} (parse : String → Option J)
    (llmOutcome : Except String (List Block))
    (attendees : List Attendee) (now : String) (h : attendees ≠ []) :
    (∃ r, generate_meeting_brief parse llmOutcome attendees now = .ok r) ∧
    (ResearchFails parse llmOutcome →
      ∃ b, generate_fallback_brief attendees now = .ok b ∧
        generate_meeting_brief parse llmOutcome attendees now =
          .ok (.fallback b)) := by
  cases attendees with
  | nil => exact absurd rfl h
  | cons a0 rest =>
    obtain ⟨b, hb⟩ : ∃ b, generate_fallback_brief (a0 :: rest) now = .ok b :=
      ⟨_, rfl⟩
    constructor
    · cases llmOutcome with
      | error m =>
        refine ⟨.fallback b, ?_⟩
        rw [generate_meeting_brief_llm_error, hb]
        rfl
      | ok blocks =>
        cases hp : parse (extractJson (concatText blocks)) with
        | some j =>
          exact ⟨.parsed j, generate_meeting_brief_ok_parse parse blocks _ now j hp⟩
        | none =>
          refine ⟨.fallback b, ?_⟩
          rw [generate_meeting_brief_parse_fail parse blocks _ now hp, hb]
          rfl
    · intro hfail
      refine ⟨b, hb, ?_⟩
      cases llmOutcome with
      | error m =>
        rw [generate_meeting_brief_llm_error, hb]
        rfl
      | ok blocks =>
        have hp : parse (extractJson (concatText blocks)) = none := hfail
        rw [generate_meeting_brief_parse_fail parse blocks _ now hp, hb]
        rfl

/-- Concrete input for the claim C1 witness. -/
def c1AttW : List Attendee := [⟨"a@acme.io", "A"⟩]

/-- Claim C1 witness: one attendee, LLM call fails, the fallback is
returned. -/
theorem spec_c1_witness :
    ∃ b, generate_fallback_brief c1AttW ("t") = .ok b ∧
      generate_meeting_brief (fun _ => (none : Option Unit)) (.error ("boom"))
        c1AttW ("t") = .ok (.fallback b) :=
  (spec_c1 (fun _ => (none : Option Unit)) (.error ("boom")) c1AttW ("t")
    (by decide)).2 trivial

/-- Claim C5: on a non-empty attendee list the Fallback Brief has one
profile per attendee with the fixed role/background and the company
extracted from that attendee's email, exactly three conversation starters
(the second interpolating the first attendee's company), exactly three
fixed questions, the fixed strategy sentence, and the supplied timestamp. -/
theorem spec_c5 (a0 : Attendee) (rest : List Attendee) (now : String) :
    ∃ b, generate_fallback_brief (a0 :: rest) now = .ok b ∧
      b.attendees = (a0 :: rest).map (fun a =>
        { name := a.name
          email := a.email
          role := "Role not yet researched"
          company := extract_company_from_email a.email
          background := "Research in progress..."
          recent_activity := ""
          key_fact := "" }) ∧
      b.conversation_starters =
        [ "Thank you for taking the time to meet today"
        , "I'm excited to learn more about " ++ extract_company_from_email a0.email
        , "What are your top priorities for this quarter?" ] ∧
      b.conversation_starters.length = 3 ∧
      b.questions_to_ask =
        [ "What challenges are you currently facing?"
        , "What does success look like for you?"
        , "How can we best support your goals?" ] ∧
      b.questions_to_ask.length = 3 ∧
      b.strategy = "Focus on building rapport, understanding their needs, and exploring potential collaboration opportunities." ∧
      b.generated_at = now :=
  ⟨_, rfl, rfl, rfl, rfl, rfl, rfl, rfl, rfl⟩

/-- Claim C7: the Fallback Brief is deterministic up to the timestamp —
two invocations on the same non-empty attendee list agree on every field
except `generated_at`. -/
theorem spec_c7 (a0 : Attendee) (rest : List Attendee) (now1 now2 : String) :
    ∃ b1 b2, generate_fallback_brief (a0 :: rest) now1 = .ok b1 ∧
      generate_fallback_brief (a0 :: rest) now2 = .ok b2 ∧
      b1.attendees = b2.attendees ∧
      b1.conversation_starters = b2.conversation_starters ∧
      b1.questions_to_ask = b2.questions_to_ask ∧
      b1.strategy = b2.strategy :=
  ⟨_, _, rfl, rfl, rfl, rfl, rfl, rfl⟩

/-- Claim C8: when the extracted substring parses, `generate_meeting_brief`
returns the parsed object verbatim — the result is `.parsed j` for the very
`j` the parser produced, with no modification, for an arbitrary parse
result type. -/
theorem spec_c8 {J : Type} (parse : String → Option J) (blocks : List Block)
    (attendees : List Attendee) (now : String) (j : J)
    (hp : parse (extractJson (concatText blocks)) = some j) :
    generate_meeting_brief parse (.ok blocks) attendees now = .ok (.parsed j) :=
  generate_meeting_brief_ok_parse parse blocks attendees now j hp

/-- Claim C8 witness: a reply that is just `"7"`, a parser accepting it. -/
theorem spec_c8_witness :
    generate_meeting_brief (fun s => if s = "7" then some 7 else none)
      (.ok [Block.text ("7")]) [] ("t") = .ok (.parsed 7) :=
  spec_c8 (fun s => if s = "7" then some 7 else none) [Block.text ("7")]
    [] ("t") 7 (by decide)

/-- Claim C9: on an empty attendee list, when the research path fails the
fallback call inside the `except` handler raises `IndexError`
(`attendees[0]`), and that exception escapes `generate_meeting_brief`. -/
theorem spec_c9 {J : Type} (parse : String → Option J)
    (llmOutcome : Except String (List Block)) (now : String)
    (h : ResearchFails parse llmOutcome) :
    generate_meeting_brief parse llmOutcome [] now =
      .error ("list index out of range") := by
  cases llmOutcome with
  | error m => rfl
  | ok blocks =>
    have hp : parse (extractJson (concatText blocks)) = none := h
    rw [generate_meeting_brief_parse_fail parse blocks [] now hp]
    rfl

/-- Claim C9 witness: empty attendee list, empty reply, failing parser. -/
theorem spec_c9_witness :
    generate_meeting_brief (fun _ => (none : Option Unit)) (.ok []) []
      ("t") = .error ("list index out of range") :=
  spec_c9 (fun _ => (none : Option Unit)) (.ok []) ("t") rfl

/-! ### The endpoint handler -/

theorem setItem_ok_meetingId (bv : JVal) (mid : String) (v : JVal)
    (hv : (match pySetItem bv ("meeting_id") (.str mid) with
            | .ok v' => Except.ok v'
            | .error m => Except.error ("Error generating brief: " ++ m)) =
          (Except.ok v : Except String JVal)) :
    meetingIdOf v = some (.str mid) := by
  cases bv with
  | obj fields =>
    simp only [pySetItem] at hv
    injection hv with hv'
    subst hv'
    show dictGet (dictSet fields ("meeting_id") (.str mid)) ("meeting_id") = _
    exact dictGet_dictSet fields ("meeting_id") (.str mid)
  | null => simp [pySetItem] at hv
  | bool b => simp [pySetItem] at hv
  | num n => simp [pySetItem] at hv
  | str s => simp [pySetItem] at hv
  | arr xs => simp [pySetItem] at hv

/-- Claim C2: whenever the endpoint handler returns a brief, its
`meeting_id` equals the request's `meeting_id` — the field is overwritten
after generation, whatever the Generator or Fallback put there. -/
theorem spec_c2 (parse : String → Option JVal)
    (llmOutcome : Except String (List Block)) (req : BriefRequest)
    (now : String) (_h : req.attendees ≠ []) (v : JVal)
    (hv : generate_brief parse llmOutcome req now = .ok v) :
    meetingIdOf v = some (.str req.meeting_id) := by
  unfold generate_brief at hv
  cases hg : generate_meeting_brief parse llmOutcome req.attendees now with
  | error m =>
    rw [hg] at hv
    exact Except.noConfusion hv
  | ok res =>
    rw [hg] at hv
    cases res with
    | parsed j => exact setItem_ok_meetingId j req.meeting_id v hv
    | fallback b => exact setItem_ok_meetingId b.toJVal req.meeting_id v hv

/-- Concrete request for the claim C2 witness. -/
def c2ReqW : BriefRequest := ⟨"m1", "Sync", "T", [⟨"a@acme.io", "A"⟩]⟩

/-- The brief the endpoint returns on the C2 witness run (LLM call fails,
fallback path). -/
def c2BriefW : JVal :=
  match generate_brief (fun _ => none) (.error ("boom")) c2ReqW ("t") with
  | .ok v => v
  | .error _ => .null

/-- Claim C2 witness: on the concrete fallback run, the returned brief's
`meeting_id` is the request's `"m1"`. -/
theorem spec_c2_witness : meetingIdOf c2BriefW = some (.str "m1") :=
  spec_c2 (fun _ => none) (.error ("boom")) c2ReqW ("t") (by decide)
    c2BriefW rfl

/-- Claim C6: the endpoint handler's outcome is always either an HTTP 200
brief or an HTTP 500 whose detail is `"Error generating brief: "` followed
by the exception text — no other failure shape; in particular an exception
escaping the Generator is caught and mapped to exactly that detail string. -/
theorem spec_c6 (parse : String → Option JVal)
    (llmOutcome : Except String (List Block)) (req : BriefRequest)
    (now : String) :
    ((∃ v, generate_brief parse llmOutcome req now = .ok v) ∨
      (∃ m, generate_brief parse llmOutcome req now =
        .error ("Error generating brief: " ++ m))) ∧
    (∀ m, generate_meeting_brief parse llmOutcome req.attendees now = .error m →
      generate_brief parse llmOutcome req now =
        .error ("Error generating brief: " ++ m)) := by
  constructor
  · unfold generate_brief
    cases generate_meeting_brief parse llmOutcome req.attendees now with
    | error m => exact Or.inr ⟨m, rfl⟩
    | ok res =>
      cases res with
      | parsed j =>
        cases j with
        | obj fields => exact Or.inl ⟨_, rfl⟩
        | null => exact Or.inr ⟨_, rfl⟩
        | bool b => exact Or.inr ⟨_, rfl⟩
        | num n => exact Or.inr ⟨_, rfl⟩
        | str s => exact Or.inr ⟨_, rfl⟩
        | arr xs => exact Or.inr ⟨_, rfl⟩
      | fallback b => exact Or.inl ⟨_, rfl⟩
  · intro m hm
    unfold generate_brief
    rw [hm]

/-- Concrete request for the claim C6 witness: empty attendee list, so the
Generator raises out of its handler. -/
def c6ReqW : BriefRequest := ⟨"m", "Title", "T", []⟩

/-- Claim C6 witness: the `IndexError` escaping the Generator surfaces as
the 500 detail string. -/
theorem spec_c6_witness :
    generate_brief (fun _ => none) (.error ("x")) c6ReqW ("t") =
      .error ("Error generating brief: " ++ "list index out of range") :=
  (spec_c6 (fun _ => none) (.error ("x")) c6ReqW ("t")).2
    ("list index out of range") rfl

/-- Claim C4: company extraction — the three reference examples; and for
every email, no `@` gives the literal `"Company"`, while an email
`loc@rest` (first `@` shown) yields the text of `rest` up to the next `@`
(Python `split("@")[1]`), cut at the first `.` (Python `split(".")[0]`),
passed through Python `capitalize`. -/
theorem spec_c4 :
    extract_company_from_email ("alice@acme.io") = "Acme" ∧
    extract_company_from_email ("bob@sub.example.com") = "Sub" ∧
    extract_company_from_email ("not-an-email") = "Company" ∧
    (∀ email : String, (∀ c ∈ email.data, c ≠ '@') →
      extract_company_from_email email = "Company") ∧
    (∀ loc rest : List Char, (∀ c ∈ loc, c ≠ '@') →
      extract_company_from_email (String.mk (loc ++ '@' :: rest)) =
        String.mk (pyCapitalize
          ((rest.takeWhile (fun c => c ≠ '@')).takeWhile (fun c => c ≠ '.')))) := by
  refine ⟨by decide, by decide, by decide, ?_, ?_⟩
  · intro email h
    unfold extract_company_from_email
    rw [pySplit_no_sep '@' email.data h]
  · intro loc rest h
    have hsp : pySplit '@' (loc ++ '@' :: rest) = loc :: pySplit '@' rest :=
      pySplit_append_sep '@' loc rest h
    obtain ⟨d, ds, hds⟩ : ∃ d ds, pySplit '@' rest = d :: ds := by
      rcases hq : pySplit '@' rest with _ | ⟨d, ds⟩
      · exact absurd hq (pySplit_ne_nil '@' rest)
      · exact ⟨d, ds, rfl⟩
    have hdd : d = rest.takeWhile (fun c => c ≠ '@') := by
      have hh := pySplit_headD '@' rest
      rw [hds] at hh
      simpa using hh
    unfold extract_company_from_email
    rw [show (String.mk (loc ++ '@' :: rest)).data = loc ++ '@' :: rest from rfl]
    rw [hsp, hds]
    show String.mk (pyCapitalize ((pySplit '.' d).headD [])) = _
    rw [pySplit_headD '.' d, hdd]

/-- Claim C4 witness: an address without `@` falls back to `"Company"`. -/
theorem spec_c4_witness : extract_company_from_email ("hello") = "Company" :=
  spec_c4.2.2.2.1 ("hello") (by decide)

/-- Claim C3: extraction precedence — with a `"```json"` fence present and
closed, the substring between the end of the first such marker and the
next `"```"` is taken; else with any fence present and closed, the
substring between the first `"```"` and the next one; else the whole
string; each branch trims. The final conjunct shows the concrete
precedence case: a tagged block followed by an unrelated untagged fence is
parsed from the tagged block. -/
theorem spec_c3 :
    (∀ (s : List Char) (i j : Nat), FirstOccur fenceJson s i →
      FirstOccurFrom fence3 s (i + 7) j →
      extractJsonL s = pyStrip ((s.take j).drop (i + 7))) ∧
    (∀ (s : List Char) (i j : Nat), (∀ k, ¬ OccursAt fenceJson s k) →
      FirstOccur fence3 s i → FirstOccurFrom fence3 s (i + 3) j →
      extractJsonL s = pyStrip ((s.take j).drop (i + 3))) ∧
    (∀ s : List Char, (∀ k, ¬ OccursAt fence3 s k) →
      extractJsonL s = pyStrip s) ∧
    extractJsonL ("Here: ```json\n\x7b\"x\": 1\x7d\n``` note ```\nother\n```".data) =
      "\x7b\"x\": 1\x7d".data :=
  ⟨extractJsonL_json_closed, extractJsonL_bare_closed,
    extractJsonL_no_fence, by decide⟩

/-- Claim C3 witness: first tagged marker at 1, closing fence at 10. -/
theorem spec_c3_witness :
    extractJsonL ("a```json X``` b".data) =
      pyStrip ((("a```json X``` b".data).take 10).drop 8) :=
  spec_c3.1 ("a```json X``` b".data) 1 10 (by decide) (by decide)

/-- Claim C10: an opening fence with no closing `"```"` after it makes the
closing search return `-1`, so the slice `[start:-1]` takes everything
after the opening marker except the final character of the string, which
is silently dropped before trimming — in both the tagged and the untagged
branch. -/
theorem spec_c10 :
    (∀ (s : List Char) (i : Nat), FirstOccur fenceJson s i →
      (∀ k, i + 7 ≤ k → ¬ OccursAt fence3 s k) →
      extractJsonL s = pyStrip ((s.drop (i + 7)).dropLast)) ∧
    (∀ (s : List Char) (i : Nat), (∀ k, ¬ OccursAt fenceJson s k) →
      FirstOccur fence3 s i →
      (∀ k, i + 3 ≤ k → ¬ OccursAt fence3 s k) →
      extractJsonL s = pyStrip ((s.drop (i + 3)).dropLast)) :=
  ⟨extractJsonL_json_open, extractJsonL_bare_open⟩

/-- Claim C10 witness: `"```json \x7bA"` has no closing fence; the final
`A` is dropped and the extracted text is `"\x7b"`. -/
theorem spec_c10_witness :
    extractJsonL ("```json \x7bA".data) =
      pyStrip ((("```json \x7bA".data).drop 7).dropLast) :=
  spec_c10.1 ("```json \x7bA".data) 0 (by decide)
    ((pyFindFrom_eq_none_iff fence3 (by decide) ("```json \x7bA".data) 7).mp
      (by decide))
